import Mathlib

/-!
Verification development for the job-listing scraper (`scrape_jobs.py`).

The embedding models the core pipeline of `main`:
* the scroll-and-measure convergence loop (lines 31-43) as `settle`,
  driven by an abstract sequence of page-height readings;
* the per-candidate field extraction with its fallback chains
  (lines 58-78) as `extractTitle` / `extractLocation`, over an abstract
  DOM-adapter view of a candidate element (each Selenium query the code
  performs becomes one field; a query that throws `NoSuchElementException`
  and is caught by the code's `try/except` is modelled as `Option.none`);
* the dedup-and-collect loop over candidates (lines 51-84) as `assemble`;
* the script-level control flow (driver acquisition, the initial
  `WebDriverWait`, and the final CSV write, lines 16-94) as `runScript`.

Python's `str.strip()` is modelled by `pyStrip` (drop whitespace from both
ends of the character list); Python's `x or ''` on an optional string is
`Option.getD _ ""`.
-/

/-- Characters dropped from both ends, modelling Python `str.strip()`
(which removes leading and trailing whitespace). -/
def stripChars (l : List Char) : List Char :=
  ((l.dropWhile Char.isWhitespace).reverse.dropWhile Char.isWhitespace).reverse

/-- Model of Python's `str.strip()`. -/
def pyStrip (s : String) : String :=
  String.mk (stripChars s.data)

/-- A string has no leading and no trailing whitespace character. -/
def noEdgeWS (s : String) : Bool :=
  (match s.data.head? with
   | some c => !c.isWhitespace
   | none => true) &&
  (match s.data.getLast? with
   | some c => !c.isWhitespace
   | none => true)

/-! ## Convergence scroller (lines 31-43) -/

/-- Result of the scroll loop: whether the height stabilised
(`stable_rounds` reached the threshold and the loop broke early) and how
many loop iterations ran. -/
structure SettleResult where
  converged : Bool
  cyclesUsed : Nat
deriving DecidableEq, Repr

/-- One pass of the `for _ in range(20)` scroll loop of lines 33-43.
`seq i` is the value of `document.body.scrollHeight` at the `i`-th read
(the pre-loop read of line 31 is `seq 0`; the read of loop cycle `c` is
`seq c`).  `last` is `last_height`, `streak` is `stable_rounds`, `cycle`
counts completed iterations and `fuel` the remaining ones. -/
def settleAux (seq : Nat → Nat) (threshold : Nat) :
    Nat → Nat → Nat → Nat → SettleResult
  | _, _, cycle, 0 => ⟨false, cycle⟩
  | last, streak, cycle, fuel + 1 =>
    let nh := seq (cycle + 1)
    if nh = last then
      if threshold ≤ streak + 1 then ⟨true, cycle + 1⟩
      else settleAux seq threshold nh (streak + 1) (cycle + 1) fuel
    else settleAux seq threshold nh 0 (cycle + 1) fuel

/-- The scroll loop of lines 31-43: `last_height` is initialised from the
pre-loop height read, `stable_rounds` starts at 0, and at most `maxCycles`
iterations run.  The code uses `maxCycles = 20` and `threshold = 2`. -/
def settle (seq : Nat → Nat) (maxCycles threshold : Nat) : SettleResult :=
  settleAux seq threshold (seq 0) 0 0 maxCycles

/-- Variant of the scroll loop in which each height read (and the scroll
command preceding it, folded into the same step) may throw: `seq i` is
either the reading or an adapter error.  The source has no `try/except`
inside the loop, so an error simply propagates out, which the `Except`
bind structure reproduces. -/
def settleExcAux (seq : Nat → Except Unit Nat) (threshold : Nat) :
    Nat → Nat → Nat → Nat → Except Unit SettleResult
  | _, _, cycle, 0 => .ok ⟨false, cycle⟩
  | last, streak, cycle, fuel + 1 =>
    match seq (cycle + 1) with
    | .error e => .error e
    | .ok nh =>
      if nh = last then
        if threshold ≤ streak + 1 then .ok ⟨true, cycle + 1⟩
        else settleExcAux seq threshold nh (streak + 1) (cycle + 1) fuel
      else settleExcAux seq threshold nh 0 (cycle + 1) fuel

/-- The scroll loop with fallible adapter commands (see `settleExcAux`);
the pre-loop read of line 31 may also throw. -/
def settleExc (seq : Nat → Except Unit Nat) (maxCycles threshold : Nat) :
    Except Unit SettleResult :=
  match seq 0 with
  | .error e => .error e
  | .ok h0 => settleExcAux seq threshold h0 0 0 maxCycles

/-! ## DOM adapter view of a candidate element (lines 47-78) -/

/-- An element handle as the extraction code sees it: only its visible
text is read. -/
structure Element where
  text : String
deriving DecidableEq, Repr

/-- The candidate's parent (`find_element(By.XPATH, './..')`, line 74):
the only query run against it is the location-descendant XPath of
line 75, modelled by its result. -/
structure ParentEl where
  locDescendant : Option Element
deriving DecidableEq, Repr

/-- One candidate anchor element, viewed through the exact adapter
queries the code performs on it:
* `textContent` — `a.text` (line 59);
* `ariaLabel` — `a.get_attribute('aria-label')` (line 59);
* `hrefAttr` — `a.get_attribute('href')` (line 53);
* `titleDescendant` — the heading-or-title-hinted descendant query of
  line 62 (`none` models the caught `NoSuchElementException`);
* `locDescendant` — the location XPath query of line 70;
* `parent` — the `./..` query of line 74 together with the repeated
  location query of line 75 scoped to the parent's subtree. -/
structure Candidate where
  textContent : String
  ariaLabel : Option String
  hrefAttr : Option String
  titleDescendant : Option Element
  locDescendant : Option Element
  parent : Option ParentEl
deriving DecidableEq, Repr

/-- The output record appended to `jobs` (lines 80-84). -/
structure ListingRecord where
  title : String
  location : String
  link : String
deriving DecidableEq, Repr

/-- Line 53: `href = a.get_attribute('href') or ''` — a missing attribute
becomes the empty string (and an empty attribute stays empty). -/
def hrefOf (c : Candidate) : String :=
  (c.hrefAttr).getD ""

/-- Lines 58-65: `title = a.text.strip() or (a.get_attribute('aria-label')
or '').strip()`; if that is empty, the nested heading/title-hinted
descendant is tried, its text stripped, and a failed lookup (caught
exception) yields the empty string. -/
def extractTitle (c : Candidate) : String :=
  let t :=
    if pyStrip c.textContent = "" then pyStrip ((c.ariaLabel).getD "")
    else pyStrip c.textContent
  if t = "" then
    match c.titleDescendant with
    | some h => pyStrip h.text
    | none => ""
  else t

/-- Lines 67-78: first the location XPath on the candidate itself; on
failure, the candidate's parent is fetched and the same XPath is run
against the parent's subtree; any failure along the way is caught and
yields the empty string. -/
def extractLocation (c : Candidate) : String :=
  match c.locDescendant with
  | some e => pyStrip e.text
  | none =>
    match c.parent with
    | some p =>
      match p.locDescendant with
      | some e2 => pyStrip e2.text
      | none => ""
    | none => ""

/-- The record built from one candidate (lines 80-84). -/
def recordOf (c : Candidate) : ListingRecord :=
  ⟨extractTitle c, extractLocation c, hrefOf c⟩

/-- The dedup-and-collect loop of lines 51-84, with the `seen` set
modelled as the list of hrefs inserted so far: a candidate whose href is
empty or already seen is skipped before any field extraction; otherwise
its href is recorded and its record appended, in input order. -/
def assembleAux (seen : List String) : List Candidate → List ListingRecord
  | [] => []
  | c :: rest =>
    if hrefOf c = "" ∨ hrefOf c ∈ seen then assembleAux seen rest
    else recordOf c :: assembleAux (hrefOf c :: seen) rest

/-- Lines 51-84 as a whole: `seen = set()` starts empty, `jobs = []`. -/
def assemble (cs : List Candidate) : List ListingRecord :=
  assembleAux [] cs

/-! ## Specification-side formulations (for refinement statements) -/

/-- Modelled from the spec (§4.3): an ordered strategy chain, first
non-empty result wins, empty string if all strategies fail. -/
def chainFirst : List String → String
  | [] => ""
  | s :: rest => if s = "" then chainFirst rest else s

/-- The text produced by the heading-or-title-hinted descendant strategy
(step 3 of the title chain). -/
def titleDescText (c : Candidate) : String :=
  match c.titleDescendant with
  | some h => pyStrip h.text
  | none => ""

/-- The three title strategies of §4.3, in chain order. -/
def titleStrategies (c : Candidate) : List String :=
  [pyStrip c.textContent, pyStrip ((c.ariaLabel).getD ""), titleDescText c]

/-- First-occurrence deduplication of a list of keys, relative to a set
of already-seen keys. -/
def dedupFirstAux (seen : List String) : List String → List String
  | [] => []
  | h :: t =>
    if h ∈ seen then dedupFirstAux seen t
    else h :: dedupFirstAux (h :: seen) t

/-- First-occurrence deduplication of a list of keys. -/
def dedupFirst (l : List String) : List String :=
  dedupFirstAux [] l

/-! ## Script-level control flow (lines 16-94) -/

/-- The fatal (uncaught) failure modes of the script body: the driver
construction of line 16 failing; the pre-scroll phase failing — the
initial `WebDriverWait` of lines 22-28 raising `TimeoutException`
because no element matching a wait selector ever appears (an uncaught
navigation error at line 20 is the same fatal category and is not
distinguished by the model); an adapter command of the scroll loop
(lines 31-43) throwing, which nothing catches (see `settleExc`); and the
CSV open/write of lines 86-89 failing.  The `try` of line 19 has only a
`finally`, so each of these propagates and exits the process non-zero. -/
inductive ScriptError where
  | acquireFailure
  | waitTimeout
  | scrollError
  | writeFailure
deriving DecidableEq, Repr

/-- The page and the run's external effects as the script observes them:
the height-reading stream consumed by the scroll loop (each scroll or
measure command may throw, folded into its cycle's read); whether some
element matching a wait selector is present (so the `WebDriverWait`
succeeds rather than raising `TimeoutException`); the candidate elements
the card query of lines 47-50 returns (per the adapter interface this
query and the per-element text/attribute reads do not raise — element
lookups that can raise are the caught ones modelled inside `Candidate`);
and whether opening/writing `jobs.csv` succeeds. -/
structure PageModel where
  heights : Nat → Except Unit Nat
  waitContentPresent : Bool
  cards : List Candidate
  writeOk : Bool

/-- Lines 16-94 of `main`: if the driver cannot be acquired nothing runs
(fatal); if the initial wait times out the `TimeoutException` propagates
through the `try/finally` (fatal); then the scroll loop runs — its
result is not consulted, but an adapter error inside it propagates
(fatal); then the candidates are assembled (total: every lookup failure
is caught per-field) and the records written — a write failure is fatal,
otherwise `.ok records` models a completed run: exit code 0 with a
header line and exactly these records written to `jobs.csv`. -/
def runScript (acquireOk : Bool) (page : PageModel) :
    Except ScriptError (List ListingRecord) :=
  if acquireOk then
    if page.waitContentPresent then
      match settleExc page.heights 20 2 with
      | .error _ => .error .scrollError
      | .ok _ =>
        if page.writeOk then .ok (assemble page.cards)
        else .error .writeFailure
    else .error .waitTimeout
  else .error .acquireFailure

/-! ## Concrete inputs used by scenarios, witnesses and counterexamples -/

/-- Scenario candidate `{href:"/jobs/1", title:"Engineer"}`. -/
def candEngineer : Candidate :=
  ⟨"Engineer", none, some "/jobs/1", none, none, none⟩

/-- Scenario candidate `{href:"/jobs/1", title:""}` (duplicate href,
empty title). -/
def candDupEmpty : Candidate :=
  ⟨"", none, some "/jobs/1", none, none, none⟩

/-- Scenario candidate `{href:"/jobs/2", title:"Analyst"}`. -/
def candAnalyst : Candidate :=
  ⟨"Analyst", none, some "/jobs/2", none, none, none⟩

/-- The scenario input of §8. -/
def scenarioCands : List Candidate :=
  [candEngineer, candDupEmpty, candAnalyst]

/-- A candidate whose href attribute is whitespace-only. -/
def candWSHref : Candidate :=
  ⟨"T", none, some " ", none, none, none⟩

/-- A candidate with href `"x"`. -/
def candHrefX : Candidate :=
  ⟨"U", none, some "x", none, none, none⟩

/-- A candidate with href `"x "` (equal to `"x"` after trimming). -/
def candHrefXSp : Candidate :=
  ⟨"V", none, some "x ", none, none, none⟩

/-- The height sequence `100, 200, 200, 200, ...` of the §8 scenario. -/
def seqScenario : Nat → Nat :=
  fun i => if i = 0 then 100 else 200

/-- A height sequence that grows strictly for the first 20 reads and is
constant from read 20 on. -/
def seqLateStable : Nat → Nat :=
  fun i => min i 20

/-- A height sequence with a transient plateau (reads 0-2 equal) before
it becomes constant at a different value from read 3 on. -/
def seqEarlyPlateau : Nat → Nat :=
  fun i => if i < 3 then 5 else 9

/-- An error-free reading stream whose first in-loop read throws. -/
def seqThrowAt1 : Nat → Except Unit Nat :=
  fun i => if i = 1 then .error () else .ok 100

/-- A reading stream that throws on its third read (in-loop cycle 2),
after two successful strictly increasing reads. -/
def seqThrowAt2 : Nat → Except Unit Nat :=
  fun i => if i = 2 then .error () else .ok i

/-- A strictly increasing height sequence (it never repeats a reading). -/
def seqId : Nat → Nat :=
  fun n => n

/-- A height sequence constant from read 2 on (readings 0, 1, 2, 2, ...). -/
def seqMin2 : Nat → Nat :=
  fun i => min i 2

/-- A candidate without an href attribute. -/
def candNoHref : Candidate :=
  ⟨"W", none, none, none, none, none⟩

/-- A candidate with an href but with whitespace-only own text, no
aria-label, no title-hinted descendant, no location descendant on itself,
and a parent whose subtree also has no location descendant. -/
def candNowhere : Candidate :=
  ⟨"   ", none, some "/jobs/9", none, none, some ⟨none⟩⟩

/-- A page on which the driver session comes up but no element matching
any of the wait selectors ever appears (error-free reads, write would
succeed). -/
def pageNoContent : PageModel :=
  ⟨fun _ => .ok 0, false, [], true⟩

/-- A page whose wait succeeds but whose very first scroll-phase adapter
command throws. -/
def pageScrollThrows : PageModel :=
  ⟨fun _ => .error (), true, [], true⟩

/-- A page on which everything up to assembly succeeds but opening or
writing `jobs.csv` fails. -/
def pageWriteFails : PageModel :=
  ⟨fun _ => .ok 0, true, [], false⟩

/-- A fully successful run environment carrying the §8 scenario
candidates. -/
def pageScenario : PageModel :=
  ⟨fun i => .ok (seqScenario i), true, scenarioCands, true⟩

example : assemble scenarioCands =
    [⟨"Engineer", "", "/jobs/1"⟩, ⟨"Analyst", "", "/jobs/2"⟩] := by decide

example : settle seqScenario 20 2 = ⟨true, 3⟩ := by decide

example : settle seqLateStable 20 2 = ⟨false, 20⟩ := by decide

example : settle seqEarlyPlateau 20 2 = ⟨true, 2⟩ := by decide

example : settleExc seqThrowAt1 20 2 = .error () := rfl

example : assemble [candWSHref] = [⟨"T", "", " "⟩] := by decide

example : assemble [candHrefX, candHrefXSp] =
    [⟨"U", "", "x"⟩, ⟨"V", "", "x "⟩] := by decide

/-! ## Helper lemmas about stripping -/

theorem head?_dropWhile_not {p : Char → Bool} :
    ∀ {l : List Char} {c : Char}, (l.dropWhile p).head? = some c → p c = false := by
  intro l
  induction l with
  | nil => intro c h; simp [List.dropWhile] at h
  | cons a t ih =>
    intro c h
    rw [List.dropWhile_cons] at h
    by_cases ha : p a
    · exact ih (by simpa [ha] using h)
    · rw [if_neg ha] at h
      simp only [List.head?_cons, Option.some.injEq] at h
      subst h
      exact Bool.eq_false_iff.mpr ha

theorem getLast?_dropWhile {p : Char → Bool} :
    ∀ {l : List Char}, l.dropWhile p ≠ [] → (l.dropWhile p).getLast? = l.getLast? := by
  intro l
  induction l with
  | nil => intro h; simp [List.dropWhile] at h
  | cons a t ih =>
    intro h
    rw [List.dropWhile_cons] at h ⊢
    by_cases ha : p a
    · rw [if_pos ha] at h ⊢
      have ht : t ≠ [] := by
        intro he; subst he; simp [List.dropWhile] at h
      obtain ⟨b, t', rfl⟩ := List.exists_cons_of_ne_nil ht
      rw [ih h, List.getLast?_cons_cons]
    · rw [if_neg ha]

theorem noEdgeWS_intro {l : List Char}
    (h1 : ∀ c, l.head? = some c → c.isWhitespace = false)
    (h2 : ∀ c, l.getLast? = some c → c.isWhitespace = false) :
    noEdgeWS (String.mk l) = true := by
  have hd : (String.mk l).data = l := rfl
  rw [noEdgeWS, hd]
  cases hh : l.head? with
  | none =>
    cases hg : l.getLast? with
    | none => rfl
    | some c => simp [h2 c hg]
  | some c =>
    cases hg : l.getLast? with
    | none => simp [h1 c hh]
    | some c' => simp [h1 c hh, h2 c' hg]

theorem noEdgeWS_pyStrip (s : String) : noEdgeWS (pyStrip s) = true := by
  rw [pyStrip, stripChars]
  set p := Char.isWhitespace with hp
  set A := s.data.dropWhile p with hA
  apply noEdgeWS_intro
  · intro c hc
    rw [List.head?_reverse] at hc
    have hne : A.reverse.dropWhile p ≠ [] := by
      intro he; rw [he] at hc; simp at hc
    rw [getLast?_dropWhile hne, List.getLast?_reverse] at hc
    exact head?_dropWhile_not hc
  · intro c hc
    rw [List.getLast?_reverse] at hc
    exact head?_dropWhile_not hc

/-! ## Helper lemmas about the extraction chains -/

theorem extractTitle_cases (c : Candidate) :
    extractTitle c = pyStrip c.textContent ∨
    extractTitle c = pyStrip ((c.ariaLabel).getD "") ∨
    (∃ h, c.titleDescendant = some h ∧ extractTitle c = pyStrip h.text) ∨
    extractTitle c = "" := by
  rw [extractTitle]
  by_cases h1 : pyStrip c.textContent = ""
  · rw [if_pos h1]
    by_cases h2 : pyStrip ((c.ariaLabel).getD "") = ""
    · rw [if_pos h2]
      cases hd : c.titleDescendant with
      | none => exact Or.inr (Or.inr (Or.inr rfl))
      | some h => exact Or.inr (Or.inr (Or.inl ⟨h, rfl, rfl⟩))
    · rw [if_neg h2]
      exact Or.inr (Or.inl rfl)
  · rw [if_neg h1, if_neg h1]
    exact Or.inl rfl

theorem extractLocation_cases (c : Candidate) :
    (∃ e, extractLocation c = pyStrip (Element.text e)) ∨ extractLocation c = "" := by
  cases hl : c.locDescendant with
  | some e => exact Or.inl ⟨e, by simp only [extractLocation, hl]⟩
  | none =>
    cases hp : c.parent with
    | none => exact Or.inr (by simp only [extractLocation, hl, hp])
    | some par =>
      cases hq : par.locDescendant with
      | some e2 => exact Or.inl ⟨e2, by simp only [extractLocation, hl, hp, hq]⟩
      | none => exact Or.inr (by simp only [extractLocation, hl, hp, hq])

/-! ## Helper lemmas about the dedup-and-collect loop -/

theorem assembleAux_map_link (seen : List String) (cs : List Candidate) :
    (assembleAux seen cs).map (fun r => r.link) =
      dedupFirstAux seen ((cs.map hrefOf).filter (fun h => h != "")) := by
  induction cs generalizing seen with
  | nil => rfl
  | cons c rest ih =>
    rw [assembleAux, List.map_cons, List.filter_cons]
    by_cases h0 : hrefOf c = ""
    · rw [if_pos (Or.inl h0)]
      simp only [h0, bne_self_eq_false, Bool.false_eq_true, if_false]
      exact ih seen
    · have hbne : (hrefOf c != "") = true := bne_iff_ne.mpr h0
      rw [hbne, if_pos rfl]
      by_cases hs : hrefOf c ∈ seen
      · rw [if_pos (Or.inr hs), dedupFirstAux, if_pos hs]
        exact ih seen
      · rw [if_neg (by push_neg; exact ⟨h0, hs⟩), dedupFirstAux, if_neg hs,
          List.map_cons]
        exact congrArg (hrefOf c :: ·) (ih (hrefOf c :: seen))

theorem dedupFirstAux_nodup :
    ∀ (l seen : List String),
      (dedupFirstAux seen l).Nodup ∧ ∀ x ∈ dedupFirstAux seen l, x ∉ seen := by
  intro l
  induction l with
  | nil => intro seen; simp [dedupFirstAux]
  | cons h t ih =>
    intro seen
    rw [dedupFirstAux]
    by_cases hs : h ∈ seen
    · rw [if_pos hs]; exact ih seen
    · rw [if_neg hs]
      refine ⟨List.nodup_cons.mpr ⟨?_, (ih (h :: seen)).1⟩, ?_⟩
      · intro hmem
        exact (ih (h :: seen)).2 h hmem (List.mem_cons_self h seen)
      · intro x hx
        rcases List.mem_cons.mp hx with rfl | hx'
        · exact hs
        · exact fun hxs => (ih (h :: seen)).2 x hx' (List.mem_cons_of_mem h hxs)

theorem mem_assembleAux (seen : List String) (cs : List Candidate)
    (r : ListingRecord) (hr : r ∈ assembleAux seen cs) :
    r.link ≠ "" ∧ r.link ∉ seen ∧
      ∃ c, cs.find? (fun c' => hrefOf c' == r.link) = some c ∧ r = recordOf c := by
  induction cs generalizing seen with
  | nil => rw [assembleAux] at hr; exact absurd hr (List.not_mem_nil r)
  | cons c rest ih =>
    rw [assembleAux] at hr
    by_cases hskip : hrefOf c = "" ∨ hrefOf c ∈ seen
    · rw [if_pos hskip] at hr
      obtain ⟨hne, hnseen, c', hfind, hrec⟩ := ih seen hr
      have hcne : (hrefOf c == r.link) = false := by
        rcases hskip with h | h
        · exact beq_eq_false_iff_ne.mpr (fun he => hne (h ▸ he.symm))
        · exact beq_eq_false_iff_ne.mpr (fun he => hnseen (he ▸ h))
      exact ⟨hne, hnseen, c', by rw [List.find?_cons, hcne]; exact hfind, hrec⟩
    · rw [if_neg hskip] at hr
      push_neg at hskip
      rcases List.mem_cons.mp hr with rfl | hr'
      · refine ⟨hskip.1, hskip.2, c, ?_, rfl⟩
        have : (hrefOf c == (recordOf c).link) = true := beq_iff_eq.mpr rfl
        rw [List.find?_cons, this]
      · obtain ⟨hne, hnseen, c', hfind, hrec⟩ := ih (hrefOf c :: seen) hr'
        have hlink : hrefOf c ≠ r.link :=
          fun he => hnseen (he ▸ List.mem_cons_self (hrefOf c) seen)
        refine ⟨hne, fun h => hnseen (List.mem_cons_of_mem _ h), c', ?_, hrec⟩
        rw [List.find?_cons, beq_eq_false_iff_ne.mpr hlink]
        exact hfind

theorem assembleAux_skip_empty (c : Candidate) (hc : hrefOf c = "") :
    ∀ (l1 : List Candidate) (l2 : List Candidate) (seen : List String),
      assembleAux seen (l1 ++ c :: l2) = assembleAux seen (l1 ++ l2) := by
  intro l1
  induction l1 with
  | nil =>
    intro l2 seen
    rw [List.nil_append, List.nil_append, assembleAux, if_pos (Or.inl hc)]
  | cons a t ih =>
    intro l2 seen
    rw [List.cons_append, List.cons_append, assembleAux, assembleAux]
    by_cases h : hrefOf a = "" ∨ hrefOf a ∈ seen
    · rw [if_pos h, if_pos h, ih]
    · rw [if_neg h, if_neg h, ih]

/-! ## Helper lemmas about the scroll loop -/

/-- While the streak invariant holds (a positive streak means the last
comparison was an equality) and no three consecutive readings are ever
equal, the loop can never break early: it burns its whole fuel. -/
theorem settleAux_no_streak (seq : Nat → Nat)
    (H : ∀ n, ¬(seq n = seq (n + 1) ∧ seq (n + 1) = seq (n + 2))) :
    ∀ (fuel cycle streak : Nat),
      (1 ≤ streak → 1 ≤ cycle ∧ seq (cycle - 1) = seq cycle) →
      settleAux seq 2 (seq cycle) streak cycle fuel = ⟨false, cycle + fuel⟩ := by
  intro fuel
  induction fuel with
  | zero =>
    intro cycle streak _
    rw [settleAux]
    exact congrArg (SettleResult.mk false) (by omega)
  | succ f ih =>
    intro cycle streak hinv
    simp only [settleAux]
    by_cases heq : seq (cycle + 1) = seq cycle
    · rw [if_pos heq]
      have hs0 : streak = 0 := by
        by_contra hs
        obtain ⟨hc, hprev⟩ := hinv (Nat.one_le_iff_ne_zero.mpr hs)
        have e1 : cycle - 1 + 1 = cycle := by omega
        have e2 : cycle - 1 + 2 = cycle + 1 := by omega
        exact H (cycle - 1) (by rw [e1, e2]; exact ⟨hprev, heq.symm⟩)
      subst hs0
      rw [if_neg (by omega : ¬ 2 ≤ 0 + 1)]
      have := ih (cycle + 1) (0 + 1)
        (fun _ => ⟨by omega, by rw [Nat.add_sub_cancel]; exact heq.symm⟩)
      rw [this]
      exact congrArg (SettleResult.mk false) (by omega)
    · rw [if_neg heq]
      have := ih (cycle + 1) 0 (fun h => absurd h (by omega))
      rw [this]
      exact congrArg (SettleResult.mk false) (by omega)

/-- From a cycle at which the height sequence has already stabilised,
two more cycles of fuel suffice to converge. -/
theorem settleAux_stable_tail (seq : Nat → Nat) (k : Nat)
    (hconst : ∀ i, k ≤ i → seq i = seq k) :
    ∀ (cycle streak f : Nat), k ≤ cycle →
      ∃ u, settleAux seq 2 (seq cycle) streak cycle (f + 2) = ⟨true, u⟩ ∧
        u ≤ cycle + 2 := by
  intro cycle streak f hk
  have h1 : seq (cycle + 1) = seq cycle := by
    rw [hconst (cycle + 1) (by omega), hconst cycle hk]
  have h2 : seq (cycle + 1 + 1) = seq (cycle + 1) := by
    rw [hconst (cycle + 1 + 1) (by omega), hconst (cycle + 1) (by omega)]
  show ∃ u, settleAux seq 2 (seq cycle) streak cycle ((f + 1) + 1) = ⟨true, u⟩ ∧
    u ≤ cycle + 2
  simp only [settleAux]
  rw [if_pos h1]
  by_cases hs : 2 ≤ streak + 1
  · rw [if_pos hs]
    exact ⟨cycle + 1, rfl, by omega⟩
  · rw [if_neg hs]
    rw [if_pos h2, if_pos (by omega : 2 ≤ streak + 1 + 1)]
    exact ⟨cycle + 1 + 1, rfl, by omega⟩

/-- If the height sequence is constant from read `k` on and at least
`k + 2` cycles of fuel remain, the loop converges using at most `k + 2`
cycles in total. -/
theorem settleAux_stable_bound (seq : Nat → Nat) (k : Nat)
    (hconst : ∀ i, k ≤ i → seq i = seq k) :
    ∀ (fuel cycle streak : Nat), cycle ≤ k → k + 2 ≤ cycle + fuel →
      ∃ u, settleAux seq 2 (seq cycle) streak cycle fuel = ⟨true, u⟩ ∧
        u ≤ k + 2 := by
  intro fuel
  induction fuel with
  | zero => intro cycle streak hck hbudget; omega
  | succ f ih =>
    intro cycle streak hck hbudget
    by_cases hek : cycle = k
    · subst hek
      obtain ⟨g, hg⟩ : ∃ g, f + 1 = g + 2 := ⟨f - 1, by omega⟩
      rw [hg]
      obtain ⟨u, hu, hub⟩ :=
        settleAux_stable_tail seq cycle hconst cycle streak g (le_refl cycle)
      exact ⟨u, hu, hub⟩
    · have hlt : cycle < k := by omega
      simp only [settleAux]
      by_cases heq : seq (cycle + 1) = seq cycle
      · rw [if_pos heq]
        by_cases hs : 2 ≤ streak + 1
        · rw [if_pos hs]
          exact ⟨cycle + 1, rfl, by omega⟩
        · rw [if_neg hs]
          exact ih (cycle + 1) (streak + 1) (by omega) (by omega)
      · rw [if_neg heq]
        exact ih (cycle + 1) 0 (by omega) (by omega)

/-- A converged run broke out of the loop at a cycle whose reading and
the two readings before it are all equal (with `threshold = 2`). -/
theorem settleAux_converged_triple (seq : Nat → Nat) :
    ∀ (fuel cycle streak u : Nat),
      (1 ≤ streak → 1 ≤ cycle ∧ seq (cycle - 1) = seq cycle) →
      settleAux seq 2 (seq cycle) streak cycle fuel = ⟨true, u⟩ →
      2 ≤ u ∧ seq (u - 2) = seq (u - 1) ∧ seq (u - 1) = seq u := by
  intro fuel
  induction fuel with
  | zero =>
    intro cycle streak u _ h
    rw [settleAux] at h
    exact absurd (congrArg SettleResult.converged h) (by simp)
  | succ f ih =>
    intro cycle streak u hinv h
    simp only [settleAux] at h
    by_cases heq : seq (cycle + 1) = seq cycle
    · rw [if_pos heq] at h
      by_cases hs : 2 ≤ streak + 1
      · rw [if_pos hs] at h
        have hu : cycle + 1 = u := congrArg SettleResult.cyclesUsed h
        obtain ⟨hc, hprev⟩ := hinv (by omega)
        subst hu
        refine ⟨by omega, ?_, ?_⟩
        · have e1 : cycle + 1 - 2 = cycle - 1 := by omega
          have e2 : cycle + 1 - 1 = cycle := by omega
          rw [e1, e2]; exact hprev
        · have e2 : cycle + 1 - 1 = cycle := by omega
          rw [e2]; exact heq.symm
      · rw [if_neg hs] at h
        exact ih (cycle + 1) (streak + 1) u
          (fun _ => ⟨by omega, by rw [Nat.add_sub_cancel]; exact heq.symm⟩) h
    · rw [if_neg heq] at h
      exact ih (cycle + 1) 0 u (fun h1 => absurd h1 (by omega)) h

/-- The fallible loop agrees with the pure loop when no command throws. -/
theorem settleExcAux_pure (seq : Nat → Nat) (threshold : Nat) :
    ∀ (fuel last streak cycle : Nat),
      settleExcAux (fun i => .ok (seq i)) threshold last streak cycle fuel =
        .ok (settleAux seq threshold last streak cycle fuel) := by
  intro fuel
  induction fuel with
  | zero => intro last streak cycle; rfl
  | succ f ih =>
    intro last streak cycle
    simp only [settleExcAux, settleAux]
    by_cases heq : seq (cycle + 1) = last
    · rw [if_pos heq, if_pos heq]
      by_cases hs : threshold ≤ streak + 1
      · rw [if_pos hs, if_pos hs]
      · rw [if_neg hs, if_neg hs, ih]
    · rw [if_neg heq, if_neg heq, ih]

/-- One-step unfolding of the scroll loop body. -/
theorem settleAux_step (seq : Nat → Nat) (t last streak cycle f : Nat) :
    settleAux seq t last streak cycle (f + 1) =
      if seq (cycle + 1) = last then
        if t ≤ streak + 1 then ⟨true, cycle + 1⟩
        else settleAux seq t (seq (cycle + 1)) (streak + 1) (cycle + 1) f
      else settleAux seq t (seq (cycle + 1)) 0 (cycle + 1) f := rfl

/-- One-step unfolding of the fallible scroll loop body. -/
theorem settleExcAux_step (seq : Nat → Except Unit Nat)
    (t last streak cycle f : Nat) :
    settleExcAux seq t last streak cycle (f + 1) =
      match seq (cycle + 1) with
      | .error e => .error e
      | .ok nh =>
        if nh = last then
          if t ≤ streak + 1 then .ok ⟨true, cycle + 1⟩
          else settleExcAux seq t nh (streak + 1) (cycle + 1) f
        else settleExcAux seq t nh 0 (cycle + 1) f := rfl

/-- If the reading stream agrees with pure values below read `n`, read
`n` throws, and the pure loop from the same state still uses cycle `n`
(it has neither broken nor exhausted its fuel before then), the fallible
loop reaches read `n` and the error propagates out. -/
theorem settleExcAux_error_executed (vals : Nat → Nat)
    (seq : Nat → Except Unit Nat) (n : Nat)
    (hok : ∀ i, i < n → seq i = .ok (vals i))
    (herr : seq n = .error ()) :
    ∀ (fuel cycle streak last : Nat), cycle < n →
      n ≤ (settleAux vals 2 last streak cycle fuel).cyclesUsed →
      settleExcAux seq 2 last streak cycle fuel = .error () := by
  intro fuel
  induction fuel with
  | zero =>
    intro cycle streak last hcy hrun
    rw [settleAux] at hrun
    exact absurd (show n ≤ cycle from hrun) (by omega)
  | succ f ih =>
    intro cycle streak last hcy hrun
    rw [settleExcAux_step]
    by_cases hn : cycle + 1 = n
    · rw [hn, herr]
    · have hlt : cycle + 1 < n := by omega
      rw [hok (cycle + 1) hlt]
      show (if vals (cycle + 1) = last then
          if 2 ≤ streak + 1 then Except.ok (⟨true, cycle + 1⟩ : SettleResult)
          else settleExcAux seq 2 (vals (cycle + 1)) (streak + 1) (cycle + 1) f
        else settleExcAux seq 2 (vals (cycle + 1)) 0 (cycle + 1) f) =
        .error ()
      rw [settleAux_step] at hrun
      by_cases heq : vals (cycle + 1) = last
      · rw [if_pos heq] at hrun ⊢
        by_cases hs : 2 ≤ streak + 1
        · rw [if_pos hs] at hrun
          exact absurd (show n ≤ cycle + 1 from hrun) (by omega)
        · rw [if_neg hs] at hrun ⊢
          exact ih (cycle + 1) (streak + 1) (vals (cycle + 1)) hlt hrun
      · rw [if_neg heq] at hrun ⊢
        exact ih (cycle + 1) 0 (vals (cycle + 1)) hlt hrun

/-! ## Claims -/

/-- C1: for every sequence of candidates in discovery order, the output
contains exactly one record per distinct (verbatim, non-empty) href: the
link column of the output is the first-occurrence deduplication of the
non-empty hrefs, hence duplicate-free; each output record is built from
the FIRST-discovered candidate carrying its href (later duplicates are
dropped before extraction, with no merge); and output order is
first-occurrence order of hrefs.  On the §8 scenario input the output is
exactly the two expected records, with the first `/jobs/1` candidate
winning over the later empty-titled duplicate. -/
theorem assemble_first_seen_order (cs : List Candidate) :
    ((assemble cs).map (fun r => r.link) =
        dedupFirst ((cs.map hrefOf).filter (fun h => h != ""))) ∧
    ((assemble cs).map (fun r => r.link)).Nodup ∧
    (∀ r ∈ assemble cs, ∃ c,
        cs.find? (fun c' => hrefOf c' == r.link) = some c ∧ r = recordOf c) ∧
    assemble scenarioCands =
      [⟨"Engineer", "", "/jobs/1"⟩, ⟨"Analyst", "", "/jobs/2"⟩] := by
  refine ⟨assembleAux_map_link [] cs, ?_, ?_, by decide⟩
  · rw [assemble, assembleAux_map_link [] cs]
    exact (dedupFirstAux_nodup _ []).1
  · intro r hr
    obtain ⟨-, -, c, hfind, hrec⟩ := mem_assembleAux [] cs r hr
    exact ⟨c, hfind, hrec⟩

/-- Witness for C1 at the scenario input: the first output record indeed
exists in the output and is built from the first candidate whose href is
`/jobs/1`. -/
theorem assemble_first_seen_order_witness :
    (⟨"Engineer", "", "/jobs/1"⟩ : ListingRecord) ∈ assemble scenarioCands ∧
    ∃ c, scenarioCands.find?
        (fun c' => hrefOf c' ==
          (⟨"Engineer", "", "/jobs/1"⟩ : ListingRecord).link) = some c ∧
      (⟨"Engineer", "", "/jobs/1"⟩ : ListingRecord) = recordOf c :=
  ⟨by decide,
   (assemble_first_seen_order scenarioCands).2.2.1
     ⟨"Engineer", "", "/jobs/1"⟩ (by decide)⟩

/-- C2: if no three consecutive height readings are ever equal — i.e. the
`stable_rounds` streak can never reach the stability threshold of 2
consecutive unchanged comparisons, so the page never stabilises — the
scroll loop runs its full budget and terminates (it is a bounded `for`
loop) with `converged = false` and `cyclesUsed = maxCycles = 20`. -/
theorem settle_budget_safety (seq : Nat → Nat)
    (H : ∀ n, ¬(seq n = seq (n + 1) ∧ seq (n + 1) = seq (n + 2))) :
    settle seq 20 2 = ⟨false, 20⟩ := by
  rw [settle]
  have h := settleAux_no_streak seq H 20 0 0 (fun h => absurd h (by omega))
  simpa using h

/-- Witness for C2: the strictly increasing height sequence never has two
equal consecutive readings, and the loop exhausts all 20 cycles. -/
theorem settle_budget_safety_witness : settle seqId 20 2 = ⟨false, 20⟩ :=
  settle_budget_safety seqId (fun n h => by
    have h1 : n = n + 1 := h.1
    omega)

/-- C3 counterexample: the claim "constant after `k ≤ maxCycles` reads
implies `converged = true` and `k ≤ cyclesUsed ≤ k + 2`" fails in both
directions.  `seqLateStable` (strictly increasing up to read 20, constant
from read `k = 20` on, `k ≤ maxCycles`) never converges: the loop ends
with `converged = false`.  `seqEarlyPlateau` (readings 5, 5, 5, 9, 9, ...,
constant only from read `k = 3` on) converges on a transient plateau
after only 2 cycles, violating the lower bound `k ≤ cyclesUsed`. -/
theorem settle_stable_window_cex :
    (settle seqLateStable 20 2).converged = false ∧
    settle seqEarlyPlateau 20 2 = ⟨true, 2⟩ :=
  ⟨by decide, by decide⟩

/-- C3 amended: if the height sequence is constant from read `k` on and
`k + stabilityThreshold ≤ maxCycles` (that is, `k + 2 ≤ 20` — enough
budget remains for the threshold to be met after stabilisation), the loop
terminates with `converged = true` and `cyclesUsed ≤ k + 2`; the lower
bound `k ≤ cyclesUsed` holds under the additional hypothesis that no
three consecutive equal readings occur before read `k` (otherwise an
earlier transient plateau makes the loop converge before `k`). -/
theorem settle_stable_window (seq : Nat → Nat) (k : Nat)
    (hconst : ∀ i, k ≤ i → seq i = seq k) (hk : k + 2 ≤ 20) :
    (settle seq 20 2).converged = true ∧
    (settle seq 20 2).cyclesUsed ≤ k + 2 ∧
    ((∀ j, j + 2 < k → ¬(seq j = seq (j + 1) ∧ seq (j + 1) = seq (j + 2))) →
      k ≤ (settle seq 20 2).cyclesUsed) := by
  obtain ⟨u, hu, hub⟩ :=
    settleAux_stable_bound seq k hconst 20 0 0 (by omega) (by omega)
  rw [settle, hu]
  refine ⟨rfl, hub, ?_⟩
  intro hnt
  show k ≤ u
  obtain ⟨h2u, ht1, ht2⟩ := settleAux_converged_triple seq 20 0 0 u
    (fun h => absurd h (by omega)) hu
  by_contra hlt
  push_neg at hlt
  refine hnt (u - 2) (by omega) ⟨?_, ?_⟩
  · have e : u - 2 + 1 = u - 1 := by omega
    rw [e]; exact ht1
  · have e1 : u - 2 + 1 = u - 1 := by omega
    have e2 : u - 2 + 2 = u := by omega
    rw [e1, e2]; exact ht2

/-- Witness for the amended C3 at `seqMin2` (constant from read `k = 2`). -/
theorem settle_stable_window_witness :
    (settle seqMin2 20 2).converged = true ∧
    (settle seqMin2 20 2).cyclesUsed ≤ 2 + 2 ∧
    ((∀ j, j + 2 < 2 →
        ¬(seqMin2 j = seqMin2 (j + 1) ∧ seqMin2 (j + 1) = seqMin2 (j + 2))) →
      2 ≤ (settle seqMin2 20 2).cyclesUsed) :=
  settle_stable_window seqMin2 2
    (fun i hi => by
      have h : min i 2 = min 2 2 := by omega
      exact h)
    (by omega)

/-- C4: on the height sequence 100, 200, 200, 200 (baseline read 100,
then three in-loop reads of 200) with the code's stability threshold 2,
the loop converges using 3 cycles in total — the break happens on the
third cycle (0-indexed in-loop reading 2), whose comparison is the second
consecutive unchanged one.  The result is determined by readings 0..3
alone: any height sequence agreeing with the scenario on its first four
readings gives `converged = true` and `cyclesUsed = 3`. -/
theorem settle_height_scenario (seq' : Nat → Nat)
    (h : ∀ i, i ≤ 3 → seq' i = seqScenario i) :
    settle seq' 20 2 = ⟨true, 3⟩ := by
  have h0 : seq' 0 = 100 := h 0 (by omega)
  have h1 : seq' (0 + 1) = 200 := h 1 (by omega)
  have h2 : seq' (0 + 1 + 1) = 200 := h 2 (by omega)
  have h3 : seq' (0 + 1 + 1 + 1) = 200 := h 3 (by omega)
  show settleAux seq' 2 (seq' 0) 0 0 (19 + 1) = ⟨true, 3⟩
  rw [settleAux_step, h0, h1, if_neg (by decide : ¬(200 = 100))]
  show settleAux seq' 2 200 0 (0 + 1) (18 + 1) = ⟨true, 3⟩
  rw [settleAux_step, h2, if_pos rfl, if_neg (by omega : ¬2 ≤ 0 + 1)]
  show settleAux seq' 2 200 (0 + 1) (0 + 1 + 1) (17 + 1) = ⟨true, 3⟩
  rw [settleAux_step, h3, if_pos rfl, if_pos (by omega : 2 ≤ 0 + 1 + 1)]

/-- Witness for C4: the scenario sequence itself. -/
theorem settle_height_scenario_witness : settle seqScenario 20 2 = ⟨true, 3⟩ :=
  settle_height_scenario seqScenario (fun _ _ => rfl)

/-- C5 counterexample: the scroll loop body (lines 33-43) has no
`try/except`.  On a reading stream whose first in-loop command throws
(and every other read returns 100), the claim predicts the cycle is
treated as "no change" and the loop continues — which would produce an
`.ok` result, since the remaining constant readings converge — but the
code propagates the error out of the loop. -/
theorem settleExc_cycle_error_cex :
    settleExc seqThrowAt1 20 2 = .error () := rfl

/-- C5 amended: an adapter error during ANY scroll cycle the loop
executes is NOT caught: if the reading stream returns the pure values
`vals` on every read before `n` and throws on read `n`, and read `n` is
one the loop actually performs — `n` is at most the cycle count the pure
loop on `vals` uses before breaking or exhausting its budget (read 0,
the pre-loop baseline, is always performed) — then the error propagates
out of the scroll loop and aborts it; and when no command throws, the
fallible loop agrees exactly with the pure loop. -/
theorem settleExc_error_propagates :
    (∀ (vals : Nat → Nat) (seq : Nat → Except Unit Nat) (n : Nat),
        (∀ i, i < n → seq i = .ok (vals i)) →
        seq n = .error () →
        n ≤ (settle vals 20 2).cyclesUsed →
        settleExc seq 20 2 = .error ()) ∧
    (∀ (seq : Nat → Nat) (maxCycles threshold : Nat),
        settleExc (fun i => .ok (seq i)) maxCycles threshold =
          .ok (settle seq maxCycles threshold)) := by
  constructor
  · intro vals seq n hok herr hrun
    rcases Nat.eq_zero_or_pos n with rfl | hn
    · rw [settleExc, herr]
    · rw [settleExc, hok 0 hn]
      show settleExcAux seq 2 (vals 0) 0 0 20 = .error ()
      exact settleExcAux_error_executed vals seq n hok herr 20 0 0 (vals 0)
        (by omega) hrun
  · intro seq maxCycles threshold
    rw [settleExc]
    show settleExcAux (fun i => .ok (seq i)) threshold (seq 0) 0 0 maxCycles =
      .ok (settle seq maxCycles threshold)
    rw [settleExcAux_pure, settle]

/-- Witness for the amended C5: a throw on the third read (in-loop cycle
2, after two successful strictly increasing reads, so the pure loop
would still be running) propagates; and the error-free scenario stream
agrees with the pure loop. -/
theorem settleExc_error_propagates_witness :
    settleExc seqThrowAt2 20 2 = .error () ∧
    settleExc (fun i => .ok (seqScenario i)) 20 2 =
      .ok (settle seqScenario 20 2) :=
  ⟨settleExc_error_propagates.1 seqId seqThrowAt2 2
      (fun i hi => by
        have h01 : i = 0 ∨ i = 1 := by omega
        rcases h01 with rfl | rfl <;> rfl)
      rfl
      (by decide),
   settleExc_error_propagates.2 seqScenario 20 2⟩

/-- C6 counterexample: the code never trims the href (line 53 uses the
attribute verbatim).  A candidate whose href attribute is the whitespace
string `" "` is NOT discarded (the claim says a candidate whose href is
empty after trimming is discarded entirely), and two candidates whose
hrefs `"x"` and `"x "` are equal after trimming yield TWO records (the
claim says at most one). -/
theorem assemble_href_trim_cex :
    assemble [candWSHref] = [⟨"T", "", " "⟩] ∧
    assemble [candHrefX, candHrefXSp] =
      [⟨"U", "", "x"⟩, ⟨"V", "", "x "⟩] :=
  ⟨by decide, by decide⟩

/-- C6 amended: the deduplication key is the href string verbatim, with
no trimming; a candidate is discarded exactly when its href attribute is
absent or is the empty string (so it contributes no record), two
candidates with identical verbatim hrefs yield at most one record (the
output links are duplicate-free), and every output record has a non-empty
link. -/
theorem assemble_href_verbatim (cs l1 l2 : List Candidate) (c : Candidate)
    (hc : hrefOf c = "") :
    assemble (l1 ++ c :: l2) = assemble (l1 ++ l2) ∧
    ((assemble cs).map (fun r => r.link)).Nodup ∧
    (∀ r ∈ assemble cs, r.link ≠ "") := by
  refine ⟨assembleAux_skip_empty c hc l1 l2 [], ?_, ?_⟩
  · rw [assemble, assembleAux_map_link [] cs]
    exact (dedupFirstAux_nodup _ []).1
  · intro r hr
    exact (mem_assembleAux [] cs r hr).1

/-- Witness for the amended C6. -/
theorem assemble_href_verbatim_witness :
    assemble ([] ++ candNoHref :: [candHrefX]) = assemble ([] ++ [candHrefX]) ∧
    ((assemble [candWSHref]).map (fun r => r.link)).Nodup ∧
    (∀ r ∈ assemble [candWSHref], r.link ≠ "") :=
  assemble_href_verbatim [candWSHref] [] [candHrefX] candNoHref rfl

/-- C7: the title is resolved by the ordered chain (own text trimmed,
then aria-label trimmed, then the first heading-or-title-hinted
descendant's text trimmed), each step used only when every earlier step
produced an empty result, and the result is the empty string — a total
`String`, never absent — when all strategies fail. -/
theorem extractTitle_chain (c : Candidate) :
    extractTitle c = chainFirst (titleStrategies c) := by
  by_cases h1 : pyStrip c.textContent = ""
  · by_cases h2 : pyStrip ((c.ariaLabel).getD "") = ""
    · cases hd : c.titleDescendant with
      | none => simp [extractTitle, titleStrategies, chainFirst,
          titleDescText, h1, h2, hd]
      | some hh =>
        by_cases h3 : pyStrip hh.text = ""
        · simp [extractTitle, titleStrategies, chainFirst,
            titleDescText, h1, h2, hd, h3]
        · simp [extractTitle, titleStrategies, chainFirst,
            titleDescText, h1, h2, hd, h3]
    · simp [extractTitle, titleStrategies, chainFirst, titleDescText, h1, h2]
  · simp [extractTitle, titleStrategies, chainFirst, titleDescText, h1]

/-- C8: a candidate with a non-empty href on which every title lookup
fails (own text and aria-label empty after trimming, no title-hinted
descendant) and every location lookup fails (no location descendant on
the candidate, and the search repeated on its parent's subtree — if that
parent lookup succeeds at all — also finds nothing) extracts to the
record with empty title and location and the candidate's href, without
raising: every failed lookup is modelled by the caught-exception `none`
branch, so extraction is total and the record still reaches the output. -/
theorem extract_empty_safe (c : Candidate)
    (h1 : hrefOf c ≠ "") (h2 : pyStrip c.textContent = "")
    (h3 : pyStrip ((c.ariaLabel).getD "") = "")
    (h4 : c.titleDescendant = none) (h5 : c.locDescendant = none)
    (h6 : ∀ p, c.parent = some p → p.locDescendant = none) :
    recordOf c = ⟨"", "", hrefOf c⟩ ∧
    assemble [c] = [⟨"", "", hrefOf c⟩] := by
  have ht : extractTitle c = "" := by
    simp [extractTitle, h2, h3, h4]
  have hl : extractLocation c = "" := by
    cases hp : c.parent with
    | none => simp [extractLocation, h5, hp]
    | some p => simp [extractLocation, h5, hp, h6 p hp]
  have hrec : recordOf c = ⟨"", "", hrefOf c⟩ := by
    rw [recordOf, ht, hl]
  refine ⟨hrec, ?_⟩
  rw [assemble, assembleAux,
    if_neg (by simp [h1] : ¬(hrefOf c = "" ∨ hrefOf c ∈ ([] : List String))),
    assembleAux, hrec]

/-- Witness for C8: a candidate with href `/jobs/9`, whitespace-only own
text and no usable descendants anywhere. -/
theorem extract_empty_safe_witness :
    recordOf candNowhere = ⟨"", "", "/jobs/9"⟩ ∧
    assemble [candNowhere] = [⟨"", "", "/jobs/9"⟩] :=
  extract_empty_safe candNowhere (by decide) (by decide) (by decide) rfl rfl
    (fun p hp => by
      have h' : (⟨none⟩ : ParentEl) = p := by injection hp
      rw [← h'])

/-- C9 counterexample: three fatal runs on which the driver session WAS
acquired, each refuting "only total failure to acquire/initialize the
browser session is fatal".  (1) no element matching a wait selector ever
appears: the `WebDriverWait` of lines 22-28 raises `TimeoutException`,
which only the `finally` of line 93 touches, so the script exits
non-zero; (2) a scroll-phase adapter command throws (lines 31-43 have no
`try/except`); (3) opening/writing `jobs.csv` (lines 86-89) fails. -/
theorem runScript_wait_fatal_cex :
    runScript true pageNoContent = .error ScriptError.waitTimeout ∧
    runScript true pageScrollThrows = .error ScriptError.scrollError ∧
    runScript true pageWriteFails = .error ScriptError.writeFailure ∧
    ScriptError.waitTimeout ≠ ScriptError.acquireFailure ∧
    ScriptError.scrollError ≠ ScriptError.acquireFailure ∧
    ScriptError.writeFailure ≠ ScriptError.acquireFailure :=
  ⟨rfl, rfl, rfl, by decide, by decide, by decide⟩

/-- C9 amended: a run that acquires the session, finds initial wait
content, whose scroll-phase adapter commands never throw, and whose CSV
write succeeds completes with exit code 0 and writes exactly the
assembled records — including the empty record list when zero listings
are found; failed per-field lookups never produce an error (extraction
is total, every lookup failure being caught per-field); and the fatal
outcomes are exactly session-acquisition failure, the initial content
wait timing out, an uncaught scroll-phase adapter error, and CSV write
failure. -/
theorem runScript_completion (acquireOk : Bool) (page : PageModel) :
    (acquireOk = true → page.waitContentPresent = true →
      (∃ r, settleExc page.heights 20 2 = .ok r) →
      page.writeOk = true →
      runScript acquireOk page = .ok (assemble page.cards)) ∧
    (∀ e, runScript acquireOk page = .error e →
      e = ScriptError.acquireFailure ∨ e = ScriptError.waitTimeout ∨
      e = ScriptError.scrollError ∨ e = ScriptError.writeFailure) ∧
    (∀ vals : Nat → Nat,
      runScript true ⟨fun i => .ok (vals i), true, [], true⟩ = .ok []) := by
  refine ⟨?_, ?_, ?_⟩
  · intro ha hw hok hwr
    obtain ⟨r, hr⟩ := hok
    simp [runScript, ha, hw, hr, hwr]
  · intro e he
    by_cases ha : acquireOk = true
    · by_cases hw : page.waitContentPresent = true
      · cases hsc : settleExc page.heights 20 2 with
        | error u =>
          rw [runScript, if_pos ha, if_pos hw, hsc] at he
          have h' : ScriptError.scrollError = e := by injection he
          exact Or.inr (Or.inr (Or.inl h'.symm))
        | ok r =>
          by_cases hwr : page.writeOk = true
          · rw [runScript, if_pos ha, if_pos hw, hsc] at he
            simp [hwr] at he
          · rw [runScript, if_pos ha, if_pos hw, hsc] at he
            simp only [if_neg hwr] at he
            have h' : ScriptError.writeFailure = e := by injection he
            exact Or.inr (Or.inr (Or.inr h'.symm))
      · rw [runScript, if_pos ha, if_neg hw] at he
        have h' : ScriptError.waitTimeout = e := by injection he
        exact Or.inr (Or.inl h'.symm)
    · rw [runScript, if_neg ha] at he
      have h' : ScriptError.acquireFailure = e := by injection he
      exact Or.inl h'.symm
  · intro vals
    have hsc : settleExc (fun i => .ok (vals i)) 20 2 =
        .ok (settleAux vals 2 (vals 0) 0 0 20) := by
      rw [settleExc]
      show settleExcAux (fun i => .ok (vals i)) 2 (vals 0) 0 0 20 =
        .ok (settleAux vals 2 (vals 0) 0 0 20)
      exact settleExcAux_pure vals 2 20 (vals 0) 0 0
    simp [runScript, hsc, assemble, assembleAux]

/-- Witness for the amended C9: the fully successful scenario run and an
error-free zero-record run. -/
theorem runScript_completion_witness :
    runScript true pageScenario = .ok (assemble scenarioCands) ∧
    runScript true ⟨fun i => .ok (seqId i), true, [], true⟩ = .ok [] :=
  ⟨(runScript_completion true pageScenario).1 rfl rfl ⟨⟨true, 3⟩, rfl⟩ rfl,
   (runScript_completion true pageScenario).2.2 seqId⟩

/-- C10: every record in the output carries a title and a location with
no leading or trailing whitespace — each strategy of both resolution
chains strips its result before it is stored, and the fallback empty
string trivially has no edge whitespace. -/
theorem assemble_records_trimmed (cs : List Candidate) (r : ListingRecord)
    (hr : r ∈ assemble cs) :
    noEdgeWS r.title = true ∧ noEdgeWS r.location = true := by
  obtain ⟨-, -, c, -, rfl⟩ := mem_assembleAux [] cs r hr
  constructor
  · show noEdgeWS (extractTitle c) = true
    rcases extractTitle_cases c with h | h | ⟨e, -, h⟩ | h
    · rw [h]; exact noEdgeWS_pyStrip _
    · rw [h]; exact noEdgeWS_pyStrip _
    · rw [h]; exact noEdgeWS_pyStrip _
    · rw [h]; decide
  · show noEdgeWS (extractLocation c) = true
    rcases extractLocation_cases c with ⟨e, h⟩ | h
    · rw [h]; exact noEdgeWS_pyStrip _
    · rw [h]; decide

/-- Witness for C10 at the scenario output's first record. -/
theorem assemble_records_trimmed_witness :
    (⟨"Engineer", "", "/jobs/1"⟩ : ListingRecord) ∈ assemble scenarioCands ∧
    (noEdgeWS (ListingRecord.title ⟨"Engineer", "", "/jobs/1"⟩) = true ∧
     noEdgeWS (ListingRecord.location ⟨"Engineer", "", "/jobs/1"⟩) = true) :=
  ⟨by decide,
   assemble_records_trimmed scenarioCands ⟨"Engineer", "", "/jobs/1"⟩
     (by decide)⟩
